import Mathlib

/-!
Verification of the art-data batch pipeline (`build_art_data.py`).

The pipeline loads five tables (artist, artwork, image_asset, user,
artwork_financial), validates four foreign-key relationships, joins
artwork ⋈ artist ⋈ primary image ⋈ financial events, aggregates per
artist, and writes two CSV artifacts.

We embed the tables as lists of records.  Cells that pandas may read as
NaN (the optional `image_primary_id`, the optional `price_amount`) are
`Option` values; all other key columns are integers.  The three `pd.merge`
calls preserve the left table's row order and, for each left row, list
right-side matches in the right table's row order; the embedding mirrors
that with `flatMap`/`filter`.  `groupby` is called with its default
`sort=True`, so the aggregate's group keys come out in ascending key
order; the embedding sorts the deduplicated key list.
-/

/-- Row of `artist.csv`: key `artist_id`, display `name`. -/
structure Artist where
  artist_id : Int
  name : String
deriving DecidableEq

/-- Row of `artwork.csv`: key `artwork_id`, FK `artist_id`,
optional FK `image_primary_id` (NaN when unset). -/
structure Artwork where
  artwork_id : Int
  artist_id : Int
  image_primary_id : Option Int
  title : String
deriving DecidableEq

/-- Row of `image_asset.csv`: key `image_id`, FK `artwork_id`. -/
structure ImageAsset where
  image_id : Int
  artwork_id : Int
  storage_key : String
deriving DecidableEq

/-- Row of `user.csv` (loaded but unused by the core pipeline). -/
structure UserRow where
  user_id : Int
deriving DecidableEq

/-- Row of `artwork_financial.csv`: key `id`, FK `artwork_id`,
`price_amount` numeric or absent (NaN). -/
structure FinEvent where
  id : Int
  artwork_id : Int
  event_type : String
  price_amount : Option ℚ
deriving DecidableEq

/-- The five loaded tables (`load_data`'s result dictionary). -/
structure ArtData where
  artist : List Artist
  artwork : List Artwork
  image_asset : List ImageAsset
  user : List UserRow
  artwork_financial : List FinEvent
deriving DecidableEq

/-- One validator warning: the relationship label of the f-string and the
set of offending values it names (`Option Int`: `none` is a NaN cell). -/
structure Warning where
  rel : String
  missing : Finset (Option Int)
deriving DecidableEq

/-- `set(data['artwork']['artist_id']) - set(data['artist']['artist_id'])`. -/
def missing_artist (d : ArtData) : Finset (Option Int) :=
  (d.artwork.map (fun w => (some w.artist_id : Option Int))).toFinset \
    (d.artist.map (fun a => (some a.artist_id : Option Int))).toFinset

/-- `set(data['image_asset']['artwork_id']) - set(data['artwork']['artwork_id'])`. -/
def missing_artwork_img (d : ArtData) : Finset (Option Int) :=
  (d.image_asset.map (fun im => (some im.artwork_id : Option Int))).toFinset \
    (d.artwork.map (fun w => (some w.artwork_id : Option Int))).toFinset

/-- `set(data['artwork']['image_primary_id']) - set(data['image_asset']['image_id'])`.
The raw set difference: an unset (`none`/NaN) `image_primary_id` is an
element of the left set and never of the right set. -/
def missing_img_primary (d : ArtData) : Finset (Option Int) :=
  (d.artwork.map (fun w => w.image_primary_id)).toFinset \
    (d.image_asset.map (fun im => (some im.image_id : Option Int))).toFinset

/-- `set(data['artwork_financial']['artwork_id']) - set(data['artwork']['artwork_id'])`. -/
def missing_artwork_fin (d : ArtData) : Finset (Option Int) :=
  (d.artwork_financial.map (fun f => (some f.artwork_id : Option Int))).toFinset \
    (d.artwork.map (fun w => (some w.artwork_id : Option Int))).toFinset

def relArtistLabel : String := "artwork.artist_id missing in artist.artist_id"
def relImageArtworkLabel : String := "image_asset.artwork_id missing in artwork.artwork_id"
def relImgPrimaryLabel : String := "artwork.image_primary_id missing in image_asset.image_id"
def relFinArtworkLabel : String := "artwork_financial.artwork_id missing in artwork.artwork_id"

/-- `validate_links`: one warning is appended per relationship whose
missing-value set is non-empty, in the source's fixed order. -/
def validate_links (d : ArtData) : List Warning :=
  (if missing_artist d = ∅ then [] else [⟨relArtistLabel, missing_artist d⟩]) ++
  (if missing_artwork_img d = ∅ then [] else [⟨relImageArtworkLabel, missing_artwork_img d⟩]) ++
  (if missing_img_primary d = ∅ then [] else [⟨relImgPrimaryLabel, missing_img_primary d⟩]) ++
  (if missing_artwork_fin d = ∅ then [] else [⟨relFinArtworkLabel, missing_artwork_fin d⟩])

/-- First merge of `merge_data`: inner join artwork ⋈ artist on `artist_id`.
pandas preserves the left (artwork) row order and lists right matches in
right order. -/
def merge1 (d : ArtData) : List (Artwork × Artist) :=
  d.artwork.flatMap (fun w =>
    (d.artist.filter (fun a => decide (a.artist_id = w.artist_id))).map (fun a => (w, a)))

/-- Second merge: inner join with image_asset on
`image_primary_id = image_id`.  A NaN (`none`) key matches no image row. -/
def merge2 (d : ArtData) : List (Artwork × Artist × ImageAsset) :=
  (merge1 d).flatMap (fun p =>
    (d.image_asset.filter (fun im => decide (p.1.image_primary_id = some im.image_id))).map
      (fun im => (p.1, p.2, im)))

/-- One row of the enriched output: the non-financial columns (artwork,
artist, image) plus the financial columns, absent (`none`) on a left-join
miss. -/
structure Enriched where
  artwork : Artwork
  artist : Artist
  image : ImageAsset
  fin : Option FinEvent
deriving DecidableEq

/-- Third merge of `merge_data`: left outer join with artwork_financial on
`artwork_id`; a row with no match is kept once with NaN financial columns,
a row with N matches fans out into N rows in right-table order. -/
def merge_data (d : ArtData) : List Enriched :=
  (merge2 d).flatMap (fun p =>
    if d.artwork_financial.filter (fun f => decide (f.artwork_id = p.1.artwork_id)) = [] then
      [⟨p.1, p.2.1, p.2.2, none⟩]
    else
      (d.artwork_financial.filter (fun f => decide (f.artwork_id = p.1.artwork_id))).map
        (fun f => ⟨p.1, p.2.1, p.2.2, some f⟩))

/-- The `price_amount` cell of an enriched row (`none` = NaN, either from
the left-join miss or from an event without a price). -/
def rowPrice (r : Enriched) : Option ℚ :=
  r.fin.bind (fun f => f.price_amount)

/-- The non-NaN `price_amount` values of a row list, in row order
(pandas aggregation skips NaN). -/
def prices (rows : List Enriched) : List ℚ :=
  rows.filterMap rowPrice

/-- The rows of one `groupby('artist_id')` group, in original order. -/
def groupRows (rows : List Enriched) (aid : Int) : List Enriched :=
  rows.filter (fun r => decide (r.artist.artist_id = aid))

/-- The group keys of `groupby('artist_id')` with the default `sort=True`:
the distinct artist ids in ascending order. -/
def sortedArtistIds (rows : List Enriched) : List Int :=
  List.insertionSort (· ≤ ·) ((rows.map (fun r => r.artist.artist_id)).dedup)

/-- One row of `summary_by_artist`. -/
structure ArtistSummary where
  artist_id : Int
  name : Option String
  artwork_count : Nat
  total_price : ℚ
  avg_price : Option ℚ
deriving DecidableEq

/-- `analyze_data`: per sorted distinct artist_id, the group's row count
(`.size()`), `name.first()`, `price_amount` sum with NaN skipped (empty
sum is 0) and mean with NaN skipped (empty mean is NaN). -/
def analyze_data (rows : List Enriched) : List ArtistSummary :=
  (sortedArtistIds rows).map (fun aid =>
    let g := groupRows rows aid
    { artist_id := aid
      name := (g.map (fun r => r.artist.name)).head?
      artwork_count := g.length
      total_price := (prices g).sum
      avg_price := if prices g = [] then none
                   else some ((prices g).sum / ((prices g).length : ℚ)) })

/-- The two output artifacts of one pipeline run (`main` after loading):
the enriched table and the artist summary, as written by the two
`to_csv` calls. -/
def pipelineArtifacts (d : ArtData) : List Enriched × List ArtistSummary :=
  (merge_data d, analyze_data (merge_data d))

/-- In-place file write as performed by `DataFrame.to_csv(path)`: the file
is opened for truncating write and the serialized lines are written in
sequence.  `fail = some k` models an I/O failure after `k` lines (e.g.
disk full): the file is left holding the first `k` lines of the new
content — no temporary file or atomic rename is used. -/
def toCsvWrite (old new : List String) (fail : Option Nat) : List String :=
  match old, fail with
  | _, none => new
  | _, some k => new.take k

/-- First-appearance order of a key sequence: each key listed at the
position of its first occurrence. -/
def firstAppearance (l : List Int) : List Int :=
  l.foldl (fun acc x => if x ∈ acc then acc else acc ++ [x]) []

/-! ### Concrete datasets -/

/-- The spec's worked example: one artist, one artwork with a primary
image and two financial events priced 500 and 700. -/
def dEx : ArtData :=
  { artist := [⟨1, "A"⟩]
    artwork := [⟨10, 1, some 100, "T"⟩]
    image_asset := [⟨100, 10, "k"⟩]
    user := []
    artwork_financial := [⟨1, 10, "sale", some 500⟩, ⟨2, 10, "sale", some 700⟩] }

/-- The first enriched row produced from `dEx`. -/
def rEx : Enriched :=
  ⟨⟨10, 1, some 100, "T"⟩, ⟨1, "A"⟩, ⟨100, 10, "k"⟩, some ⟨1, 10, "sale", some 500⟩⟩

/-- Two artists whose artworks appear with artist 2 first: the enriched
artist-id sequence is `[2, 1]` while sorted group keys are `[1, 2]`. -/
def d3 : ArtData :=
  { artist := [⟨1, "A"⟩, ⟨2, "B"⟩]
    artwork := [⟨20, 2, some 200, "U"⟩, ⟨10, 1, some 100, "T"⟩]
    image_asset := [⟨200, 20, "k2"⟩, ⟨100, 10, "k1"⟩]
    user := []
    artwork_financial := [] }

/-- Otherwise-valid data from which the one artist (id 99) referenced by
artwork 20 has been removed. -/
def d5 : ArtData :=
  { artist := [⟨1, "A"⟩]
    artwork := [⟨20, 99, some 200, "U"⟩, ⟨10, 1, some 100, "T"⟩]
    image_asset := [⟨200, 20, "k2"⟩, ⟨100, 10, "k1"⟩]
    user := []
    artwork_financial := [⟨1, 10, "sale", some 500⟩] }

/-- Valid data except artwork 10 has no primary image assigned
(`image_primary_id` unset). -/
def d8b : ArtData :=
  { artist := [⟨1, "A"⟩]
    artwork := [⟨10, 1, none, "T"⟩, ⟨11, 1, some 100, "S"⟩]
    image_asset := [⟨100, 11, "k"⟩]
    user := []
    artwork_financial := [] }

/-- Lines of a prior run's output artifact. -/
def priorArtifact : List String :=
  ["artist_id,name,artwork_count,total_price,avg_price", "1,A,2,1200.0,600.0"]

/-- Lines the current run is writing over `priorArtifact`. -/
def newArtifact : List String :=
  ["artist_id,name,artwork_count,total_price,avg_price", "1,A,3,1900.0,633.3", "2,B,1,50.0,50.0"]

/-! ### Membership in the join stages -/

lemma mem_merge1 {d : ArtData} {w : Artwork} {a : Artist} :
    (w, a) ∈ merge1 d ↔ w ∈ d.artwork ∧ a ∈ d.artist ∧ a.artist_id = w.artist_id := by
  simp [merge1, List.mem_flatMap, List.mem_filter, List.mem_map]

lemma mem_merge2 {d : ArtData} {w : Artwork} {a : Artist} {im : ImageAsset} :
    (w, a, im) ∈ merge2 d ↔
      (w, a) ∈ merge1 d ∧ im ∈ d.image_asset ∧ w.image_primary_id = some im.image_id := by
  simp [merge2, List.mem_flatMap, List.mem_filter, List.mem_map, mem_merge1]
  aesop

lemma mem_merge_data {d : ArtData} {r : Enriched} (h : r ∈ merge_data d) :
    (r.artwork, r.artist, r.image) ∈ merge2 d ∧
      ((r.fin = none ∧ d.artwork_financial.filter
          (fun f => decide (f.artwork_id = r.artwork.artwork_id)) = []) ∨
       (∃ f, r.fin = some f ∧ f ∈ d.artwork_financial ∧ f.artwork_id = r.artwork.artwork_id)) := by
  simp only [merge_data, List.mem_flatMap] at h
  obtain ⟨p, hp, hr⟩ := h
  by_cases hf : d.artwork_financial.filter (fun f => decide (f.artwork_id = p.1.artwork_id)) = []
  · rw [if_pos hf] at hr
    simp at hr
    subst hr
    exact ⟨hp, Or.inl ⟨rfl, hf⟩⟩
  · rw [if_neg hf] at hr
    simp only [List.mem_map] at hr
    obtain ⟨f, hfmem, hre⟩ := hr
    subst hre
    have := List.mem_filter.mp hfmem
    simp at this
    exact ⟨hp, Or.inr ⟨f, rfl, this.1, this.2⟩⟩

/-! ### Claim theorems -/

/-- C1: every row of the enriched output carries an artist row from the
artist table matching its `artist_id` and an image row from the image
table matching its `image_primary_id`; an artwork for which either
resolution fails contributes no row to the output. -/
theorem join_rows_fully_resolved (d : ArtData) :
    (∀ r ∈ merge_data d,
      (∃ a ∈ d.artist, r.artist = a ∧ a.artist_id = r.artwork.artist_id) ∧
      (∃ im ∈ d.image_asset, r.image = im ∧ r.artwork.image_primary_id = some im.image_id)) ∧
    (∀ w : Artwork,
      ((∀ a ∈ d.artist, a.artist_id ≠ w.artist_id) ∨
       (∀ im ∈ d.image_asset, w.image_primary_id ≠ some im.image_id)) →
      ∀ r ∈ merge_data d, r.artwork ≠ w) := by
  constructor
  · intro r hr
    obtain ⟨h2, -⟩ := mem_merge_data hr
    rw [mem_merge2] at h2
    obtain ⟨h1, him, hkey⟩ := h2
    rw [mem_merge1] at h1
    exact ⟨⟨r.artist, h1.2.1, rfl, h1.2.2⟩, ⟨r.image, him, rfl, hkey⟩⟩
  · intro w hfail r hr he
    obtain ⟨h2, -⟩ := mem_merge_data hr
    rw [mem_merge2] at h2
    obtain ⟨h1, him, hkey⟩ := h2
    rw [mem_merge1] at h1
    rcases hfail with h | h
    · exact h r.artist h1.2.1 (by rw [h1.2.2, he])
    · exact h r.image him (by rw [← he, hkey])

/-- C1 witness: the theorem applied to the spec's example dataset and its
first enriched row. -/
theorem join_rows_fully_resolved_witness :
    (∃ a ∈ dEx.artist, rEx.artist = a ∧ a.artist_id = rEx.artwork.artist_id) ∧
    (∃ im ∈ dEx.image_asset, rEx.image = im ∧ rEx.artwork.image_primary_id = some im.image_id) :=
  (join_rows_fully_resolved dEx).1 rEx (by decide)

/-! ### Aggregator order and grouping -/

lemma analyze_map_artist_id (rows : List Enriched) :
    (analyze_data rows).map (fun s => s.artist_id) = sortedArtistIds rows := by
  simp [analyze_data, Function.comp_def]

lemma sortedArtistIds_mem {rows : List Enriched} {aid : Int} :
    aid ∈ sortedArtistIds rows ↔ ∃ r ∈ rows, r.artist.artist_id = aid := by
  rw [sortedArtistIds, (List.perm_insertionSort _ _).mem_iff, List.mem_dedup, List.mem_map]

lemma sortedArtistIds_sorted (rows : List Enriched) :
    (sortedArtistIds rows).Sorted (· < ·) := by
  have hle : (sortedArtistIds rows).Sorted (· ≤ ·) := List.sorted_insertionSort _ _
  have hnd : (sortedArtistIds rows).Nodup :=
    ((List.perm_insertionSort _ _).nodup_iff).mpr (List.nodup_dedup _)
  exact (hle.and hnd).imp (fun h => lt_of_le_of_ne h.1 h.2)

/-- C7: the pipeline is deterministic — equal input tables produce equal
enriched and summary artifacts; both artifacts are a pure function of the
five loaded tables. -/
theorem pipeline_deterministic (d1 d2 : ArtData) (h : d1 = d2) :
    pipelineArtifacts d1 = pipelineArtifacts d2 := by rw [h]

/-- C7 witness: two runs on the spec's example dataset agree. -/
theorem pipeline_deterministic_witness : pipelineArtifacts dEx = pipelineArtifacts dEx :=
  pipeline_deterministic dEx dEx rfl

/-- C6: `to_csv` writes the artifact in place; a failure after one line of
a three-line write leaves a file that is neither the prior artifact nor
the new one — the prior artifact is corrupted, not left untouched. -/
theorem to_csv_write_not_atomic :
    toCsvWrite priorArtifact newArtifact (some 1) ≠ priorArtifact ∧
    toCsvWrite priorArtifact newArtifact (some 1) ≠ newArtifact := by decide

/-- C8 counterexample: in `d8b` artwork 10's `image_primary_id` is unset,
yet the validator emits a warning for the artwork→image(primary)
relationship whose offending-value set is exactly the unset marker. -/
theorem unset_primary_reported_counterexample :
    (∃ w ∈ d8b.artwork, w.image_primary_id = none) ∧
    validate_links d8b = [⟨relImgPrimaryLabel, {none}⟩] := by decide

/-- C8 amended: the validator's artwork→image(primary) warning reports the
raw set difference, so whenever some artwork's `image_primary_id` is unset
the warning exists and counts the unset value among the offenders; the
reported set is exactly the `image_primary_id` values (set or unset)
absent from the image table's `image_id` column. -/
theorem unset_primary_reported (d : ArtData)
    (h : ∃ w ∈ d.artwork, w.image_primary_id = none) :
    ∃ warn ∈ validate_links d, warn.rel = relImgPrimaryLabel ∧
      none ∈ warn.missing ∧
      (∀ v, v ∈ warn.missing ↔
        (v ∈ d.artwork.map (fun w => w.image_primary_id) ∧
         v ∉ d.image_asset.map (fun im => (some im.image_id : Option Int)))) := by
  obtain ⟨w, hw, hnone⟩ := h
  have hmem : (none : Option Int) ∈ missing_img_primary d := by
    simp [missing_img_primary, Finset.mem_sdiff, List.mem_toFinset, List.mem_map]
    exact ⟨w, hw, hnone⟩
  have hne : missing_img_primary d ≠ ∅ := by
    intro he; rw [he] at hmem; exact absurd hmem (Finset.not_mem_empty _)
  refine ⟨⟨relImgPrimaryLabel, missing_img_primary d⟩, ?_, rfl, hmem, ?_⟩
  · simp [validate_links, hne]
  · intro v
    simp [missing_img_primary, Finset.mem_sdiff, List.mem_toFinset]

/-- C8 witness: the amended theorem applied to `d8b`. -/
theorem unset_primary_reported_witness :
    ∃ warn ∈ validate_links d8b, warn.rel = relImgPrimaryLabel ∧
      none ∈ warn.missing ∧
      (∀ v, v ∈ warn.missing ↔
        (v ∈ d8b.artwork.map (fun w => w.image_primary_id) ∧
         v ∉ d8b.image_asset.map (fun im => (some im.image_id : Option Int)))) :=
  unset_primary_reported d8b (by decide)

/-- C3 counterexample: in `d3` the enriched rows list artist 2 before
artist 1, yet the summary rows come out as `[1, 2]` — ascending artist_id
order, not first-appearance order `[2, 1]`. -/
theorem summary_order_counterexample :
    (analyze_data (merge_data d3)).map (fun s => s.artist_id) ≠
      firstAppearance ((merge_data d3).map (fun r => r.artist.artist_id)) ∧
    (analyze_data (merge_data d3)).map (fun s => s.artist_id) = [1, 2] ∧
    firstAppearance ((merge_data d3).map (fun r => r.artist.artist_id)) = [2, 1] := by
  decide

/-- C3 amended: the Aggregator outputs exactly one summary row per
distinct artist_id of the enriched set, in ascending artist_id order
(`groupby`'s default `sort=True`), and each row's display name comes
from the first row of that group in the group's original order. -/
theorem summary_sorted_by_artist_id (rows : List Enriched) :
    ((analyze_data rows).map (fun s => s.artist_id)).Sorted (· < ·) ∧
    (∀ aid : Int, aid ∈ (analyze_data rows).map (fun s => s.artist_id) ↔
      ∃ r ∈ rows, r.artist.artist_id = aid) ∧
    (∀ s ∈ analyze_data rows,
      s.name = ((groupRows rows s.artist_id).map (fun r => r.artist.name)).head?) := by
  refine ⟨?_, ?_, ?_⟩
  · rw [analyze_map_artist_id]; exact sortedArtistIds_sorted rows
  · intro aid
    rw [analyze_map_artist_id]
    exact sortedArtistIds_mem
  · intro s hs
    simp only [analyze_data, List.mem_map] at hs
    obtain ⟨aid, -, rfl⟩ := hs
    rfl

/-- C3 amended witness: the display-name clause applied to the summary row
of artist 1 in `d3`. -/
theorem summary_sorted_by_artist_id_witness :
    (⟨1, some "A", 1, 0, none⟩ : ArtistSummary).name =
      ((groupRows (merge_data d3) (⟨1, some "A", 1, 0, none⟩ : ArtistSummary).artist_id).map
        (fun r => r.artist.name)).head? :=
  (summary_sorted_by_artist_id (merge_data d3)).2.2 ⟨1, some "A", 1, 0, none⟩ (by decide)

/-- C5: the validator returns exactly one warning per relationship with at
least one violation, in the source's fixed relationship order, each
carrying the full offending-value set; with the other three relationships
clean and exactly one missing artist id, the result is the single warning
naming that id. -/
theorem validate_links_exact (d : ArtData) :
    (validate_links d).length =
      ([missing_artist d, missing_artwork_img d, missing_img_primary d,
        missing_artwork_fin d].filter (fun m => decide (m ≠ ∅))).length ∧
    (∀ w ∈ validate_links d,
      w.missing ≠ ∅ ∧
      (w = ⟨relArtistLabel, missing_artist d⟩ ∨
       w = ⟨relImageArtworkLabel, missing_artwork_img d⟩ ∨
       w = ⟨relImgPrimaryLabel, missing_img_primary d⟩ ∨
       w = ⟨relFinArtworkLabel, missing_artwork_fin d⟩)) ∧
    (missing_artwork_img d = ∅ → missing_img_primary d = ∅ → missing_artwork_fin d = ∅ →
      ∀ x : Int, missing_artist d = {some x} →
        validate_links d = [⟨relArtistLabel, {some x}⟩]) := by
  refine ⟨?_, ?_, ?_⟩
  · by_cases h1 : missing_artist d = ∅ <;>
      by_cases h2 : missing_artwork_img d = ∅ <;>
        by_cases h3 : missing_img_primary d = ∅ <;>
          by_cases h4 : missing_artwork_fin d = ∅ <;>
            simp [validate_links, h1, h2, h3, h4]
  · intro w hw
    by_cases h1 : missing_artist d = ∅ <;>
      by_cases h2 : missing_artwork_img d = ∅ <;>
        by_cases h3 : missing_img_primary d = ∅ <;>
          by_cases h4 : missing_artwork_fin d = ∅ <;>
            simp [validate_links, h1, h2, h3, h4] at hw <;> aesop
  · intro h2 h3 h4 x hx
    simp [validate_links, h2, h3, h4, hx]

/-- C5 witness: removing artist 99 (referenced by artwork 20) from
otherwise-valid data yields exactly one warning naming id 99. -/
theorem validate_links_exact_witness :
    validate_links d5 = [⟨relArtistLabel, {some 99}⟩] :=
  (validate_links_exact d5).2.2 (by decide) (by decide) (by decide) 99 (by decide)

/-! ### Price aggregation -/

lemma sortedArtistIds_nodup (rows : List Enriched) : (sortedArtistIds rows).Nodup :=
  ((List.perm_insertionSort _ _).nodup_iff).mpr (List.nodup_dedup _)

lemma prices_sum_filter_split (rows : List Enriched) (p : Enriched → Bool) :
    (prices (rows.filter p)).sum + (prices (rows.filter (fun r => !p r))).sum =
      (prices rows).sum := by
  induction rows with
  | nil => simp [prices]
  | cons r t ih =>
    by_cases hp : p r
    · cases hpr : rowPrice r with
      | none => simpa [prices, List.filter_cons, List.filterMap_cons, hp, hpr] using ih
      | some q =>
        simp [prices, List.filter_cons, List.filterMap_cons, hp, hpr] at ih ⊢
        rw [add_assoc, ih]
    · cases hpr : rowPrice r with
      | none => simpa [prices, List.filter_cons, List.filterMap_cons, hp, hpr] using ih
      | some q =>
        simp [prices, List.filter_cons, List.filterMap_cons, hp, hpr] at ih ⊢
        rw [← ih]; ring

lemma groupRows_filter_ne {rows : List Enriched} {aid i : Int} (hne : aid ≠ i) :
    groupRows rows aid =
      groupRows (rows.filter (fun r => !decide (r.artist.artist_id = i))) aid := by
  unfold groupRows
  rw [List.filter_filter]
  apply List.filter_congr
  intro r _
  by_cases h : r.artist.artist_id = aid
  · simp [h, hne]
  · simp [h]

lemma sum_prices_partition (ids : List Int) :
    ∀ (rows : List Enriched), ids.Nodup → (∀ r ∈ rows, r.artist.artist_id ∈ ids) →
      (ids.map (fun aid => (prices (groupRows rows aid)).sum)).sum = (prices rows).sum := by
  induction ids with
  | nil =>
    intro rows _ hcov
    cases rows with
    | nil => simp [prices]
    | cons r t => exact absurd (hcov r (by simp)) (by simp)
  | cons i ids ih =>
    intro rows hnd hcov
    have htail : (ids.map (fun aid => (prices (groupRows rows aid)).sum)) =
        (ids.map (fun aid =>
          (prices (groupRows (rows.filter (fun r => !decide (r.artist.artist_id = i))) aid)).sum)) := by
      apply List.map_congr_left
      intro aid haid
      have hne : aid ≠ i := by
        rintro rfl; exact (List.nodup_cons.mp hnd).1 haid
      rw [groupRows_filter_ne hne]
    rw [List.map_cons, List.sum_cons, htail, ih _ (List.nodup_cons.mp hnd).2 ?_,
      groupRows, prices_sum_filter_split]
    intro r hr
    have hmem := hcov r (List.mem_of_mem_filter hr)
    rcases List.mem_cons.mp hmem with h | h
    · have := List.of_mem_filter hr
      simp [h] at this
    · exact h

/-- C4: the per-artist `total_price` values sum to the sum of the
resolvable (present) `price_amount` values over all enriched rows —
absent prices are skipped, never an error — and on the spec's example the
summary is one row with artwork_count 2, total_price 1200, avg_price 600. -/
theorem total_price_conservation (rows : List Enriched) :
    ((analyze_data rows).map (fun s => s.total_price)).sum = (prices rows).sum ∧
    analyze_data (merge_data dEx) = [⟨1, some "A", 2, 1200, some 600⟩] := by
  constructor
  · have hmap : (analyze_data rows).map (fun s => s.total_price) =
        (sortedArtistIds rows).map (fun aid => (prices (groupRows rows aid)).sum) := by
      simp [analyze_data, Function.comp_def]
    rw [hmap]
    exact sum_prices_partition _ rows (sortedArtistIds_nodup rows)
      (fun r hr => sortedArtistIds_mem.mpr ⟨r, hr, rfl⟩)
  · norm_num [analyze_data, sortedArtistIds, groupRows, prices, rowPrice, merge_data, merge2,
      merge1, dEx, List.filterMap_cons, Option.bind]
    exact fun h => absurd h (by simp)

/-- C10: an artist whose enriched rows all lack a price still gets a
summary row: its count is the group's row count (at least one), its
total_price is 0 and its avg_price is absent. -/
theorem priceless_artist_summary (rows : List Enriched) (aid : Int)
    (hmem : ∃ r ∈ rows, r.artist.artist_id = aid)
    (hnone : ∀ r ∈ rows, r.artist.artist_id = aid → rowPrice r = none) :
    ∃ s ∈ analyze_data rows,
      s.artist_id = aid ∧ s.artwork_count = (groupRows rows aid).length ∧
      1 ≤ s.artwork_count ∧ s.total_price = 0 ∧ s.avg_price = none := by
  have hid : aid ∈ sortedArtistIds rows := sortedArtistIds_mem.mpr hmem
  have hpr : prices (groupRows rows aid) = [] := by
    unfold prices groupRows
    rw [List.filterMap_eq_nil_iff]
    intro r hr
    exact hnone r (List.mem_of_mem_filter hr) (by simpa using List.of_mem_filter hr)
  refine ⟨_, List.mem_map.mpr ⟨aid, hid, rfl⟩, rfl, rfl, ?_, ?_, ?_⟩
  · obtain ⟨r, hr, he⟩ := hmem
    have hg : r ∈ groupRows rows aid := List.mem_filter.mpr ⟨hr, by simp [he]⟩
    simpa using List.length_pos.mpr (List.ne_nil_of_mem hg)
  · simp [hpr]
  · simp [hpr]

/-- C10 witness: in `d3` artist 1's only artwork has no financial events,
and its summary row has count 1, total 0 and no average. -/
theorem priceless_artist_summary_witness :
    ∃ s ∈ analyze_data (merge_data d3),
      s.artist_id = 1 ∧ s.artwork_count = (groupRows (merge_data d3) 1).length ∧
      1 ≤ s.artwork_count ∧ s.total_price = 0 ∧ s.avg_price = none :=
  priceless_artist_summary (merge_data d3) 1 (by decide) (by decide)


/-! ### Join structure: per-artwork fan-out and left-order preservation -/

lemma flatMap_if_filter {α β : Type} (l : List α) (q : α → Bool) (g : α → List β) :
    (l.flatMap (fun x => if q x then g x else [])) = (l.filter q).flatMap g := by
  induction l with
  | nil => simp
  | cons z l ih => by_cases h : q z <;> simp [List.filter_cons, h, ih]

lemma filter_key_eq {α β : Type} [DecidableEq β] (key : α → β) :
    ∀ {l : List α}, (l.map key).Nodup → ∀ {x}, x ∈ l →
      l.filter (fun y => decide (key y = key x)) = [x]
  | [], _, x, hx => absurd hx (List.not_mem_nil x)
  | z :: l, hnd, x, hx => by
    rw [List.map_cons, List.nodup_cons] at hnd
    rcases List.mem_cons.mp hx with rfl | hxl
    · rw [List.filter_cons_of_pos (by simp)]
      have : l.filter (fun y => decide (key y = key x)) = [] := by
        rw [List.filter_eq_nil_iff]
        intro y hy hk
        exact hnd.1 (by
          rw [← (of_decide_eq_true hk)]
          exact List.mem_map_of_mem key hy)
      rw [this]
    · rw [List.filter_cons_of_neg (by
        simp only [decide_eq_true_eq]
        intro hk
        exact hnd.1 (hk ▸ List.mem_map_of_mem key hxl)),
        filter_key_eq key hnd.2 hxl]

lemma filter_rec_eq {α β : Type} [DecidableEq α] [DecidableEq β] (key : α → β) :
    ∀ {l : List α}, (l.map key).Nodup → ∀ {x}, x ∈ l →
      l.filter (fun y => decide (y = x)) = [x]
  | [], _, x, hx => absurd hx (List.not_mem_nil x)
  | z :: l, hnd, x, hx => by
    rw [List.map_cons, List.nodup_cons] at hnd
    rcases List.mem_cons.mp hx with rfl | hxl
    · rw [List.filter_cons_of_pos (by simp)]
      have : l.filter (fun y => decide (y = x)) = [] := by
        rw [List.filter_eq_nil_iff]
        intro y hy hk
        rw [of_decide_eq_true hk] at hy
        exact hnd.1 (List.mem_map_of_mem key hy)
      rw [this]
    · rw [List.filter_cons_of_neg (by
        simp only [decide_eq_true_eq]
        rintro rfl
        exact hnd.1 (List.mem_map_of_mem key hxl)),
        filter_rec_eq key hnd.2 hxl]

lemma merge1_filter_eq {d : ArtData} {w : Artwork} {a : Artist}
    (hW : (d.artwork.map (fun x => x.artwork_id)).Nodup)
    (hA : (d.artist.map (fun x => x.artist_id)).Nodup)
    (hw : w ∈ d.artwork) (ha : a ∈ d.artist) (haid : a.artist_id = w.artist_id) :
    (merge1 d).filter (fun p => decide (p.1 = w)) = [(w, a)] := by
  rw [merge1, List.filter_flatMap]
  have hinner : ∀ w' : Artwork,
      ((d.artist.filter (fun x => decide (x.artist_id = w'.artist_id))).map
        (fun x => (w', x))).filter (fun p => decide (p.1 = w)) =
      if decide (w' = w) then
        (d.artist.filter (fun x => decide (x.artist_id = w'.artist_id))).map (fun x => (w', x))
      else [] := by
    intro w'
    rw [List.filter_map]
    by_cases h : w' = w
    · simp [h]
    · simp [h]
  rw [congrArg (List.flatMap d.artwork) (funext hinner), flatMap_if_filter,
    filter_rec_eq (fun x => x.artwork_id) hW hw]
  simp only [List.flatMap_cons, List.flatMap_nil, List.append_nil]
  rw [← haid, filter_key_eq (fun x => x.artist_id) hA ha]
  simp

lemma merge2_filter_eq {d : ArtData} {w : Artwork} {a : Artist} {im : ImageAsset}
    (hW : (d.artwork.map (fun x => x.artwork_id)).Nodup)
    (hA : (d.artist.map (fun x => x.artist_id)).Nodup)
    (hI : (d.image_asset.map (fun x => x.image_id)).Nodup)
    (hw : w ∈ d.artwork) (ha : a ∈ d.artist) (haid : a.artist_id = w.artist_id)
    (him : im ∈ d.image_asset) (hpid : w.image_primary_id = some im.image_id) :
    (merge2 d).filter (fun p => decide (p.1 = w)) = [(w, a, im)] := by
  rw [merge2, List.filter_flatMap]
  have hinner : ∀ p : Artwork × Artist,
      ((d.image_asset.filter (fun x => decide (p.1.image_primary_id = some x.image_id))).map
        (fun x => (p.1, p.2, x))).filter (fun t => decide (t.1 = w)) =
      if decide (p.1 = w) then
        (d.image_asset.filter (fun x => decide (p.1.image_primary_id = some x.image_id))).map
          (fun x => (p.1, p.2, x))
      else [] := by
    intro p
    rw [List.filter_map]
    by_cases h : p.1 = w
    · simp [h]
    · simp [h]
  rw [congrArg (List.flatMap (merge1 d)) (funext hinner), flatMap_if_filter,
    merge1_filter_eq hW hA hw ha haid]
  simp only [List.flatMap_cons, List.flatMap_nil, List.append_nil]
  have hcongr : d.image_asset.filter (fun x => decide (w.image_primary_id = some x.image_id)) =
      d.image_asset.filter (fun x => decide (x.image_id = im.image_id)) := by
    apply List.filter_congr
    intro x _
    rw [hpid]
    simp only [Option.some.injEq, decide_eq_decide]
    exact eq_comm
  rw [show (fun x => decide ((w, a).1.image_primary_id = some x.image_id)) =
      (fun x : ImageAsset => decide (w.image_primary_id = some x.image_id)) from rfl,
    hcongr, filter_key_eq (fun x => x.image_id) hI him]
  simp

lemma merge_data_filter_eq {d : ArtData} {w : Artwork} {a : Artist} {im : ImageAsset}
    (hW : (d.artwork.map (fun x => x.artwork_id)).Nodup)
    (hA : (d.artist.map (fun x => x.artist_id)).Nodup)
    (hI : (d.image_asset.map (fun x => x.image_id)).Nodup)
    (hw : w ∈ d.artwork) (ha : a ∈ d.artist) (haid : a.artist_id = w.artist_id)
    (him : im ∈ d.image_asset) (hpid : w.image_primary_id = some im.image_id) :
    (merge_data d).filter (fun r => decide (r.artwork = w)) =
      if d.artwork_financial.filter (fun f => decide (f.artwork_id = w.artwork_id)) = [] then
        [⟨w, a, im, none⟩]
      else
        (d.artwork_financial.filter (fun f => decide (f.artwork_id = w.artwork_id))).map
          (fun f => ⟨w, a, im, some f⟩) := by
  rw [merge_data, List.filter_flatMap]
  have hinner : ∀ p : Artwork × Artist × ImageAsset,
      ((if d.artwork_financial.filter (fun f => decide (f.artwork_id = p.1.artwork_id)) = [] then
          [(⟨p.1, p.2.1, p.2.2, none⟩ : Enriched)]
        else
          (d.artwork_financial.filter (fun f => decide (f.artwork_id = p.1.artwork_id))).map
            (fun f => ⟨p.1, p.2.1, p.2.2, some f⟩)).filter
          (fun r => decide (r.artwork = w))) =
      if decide (p.1 = w) then
        (if d.artwork_financial.filter (fun f => decide (f.artwork_id = p.1.artwork_id)) = [] then
          [(⟨p.1, p.2.1, p.2.2, none⟩ : Enriched)]
        else
          (d.artwork_financial.filter (fun f => decide (f.artwork_id = p.1.artwork_id))).map
            (fun f => ⟨p.1, p.2.1, p.2.2, some f⟩))
      else [] := by
    intro p
    have hres : ∀ r ∈ (if d.artwork_financial.filter
          (fun f => decide (f.artwork_id = p.1.artwork_id)) = [] then
          [(⟨p.1, p.2.1, p.2.2, none⟩ : Enriched)]
        else
          (d.artwork_financial.filter (fun f => decide (f.artwork_id = p.1.artwork_id))).map
            (fun f => ⟨p.1, p.2.1, p.2.2, some f⟩)), r.artwork = p.1 := by
      intro r hr
      split at hr
      · simp at hr; subst hr; rfl
      · obtain ⟨f, -, rfl⟩ := List.mem_map.mp hr; rfl
    by_cases h : p.1 = w
    · rw [List.filter_eq_self.mpr (fun r hr => decide_eq_true (by rw [hres r hr, h])),
        if_pos (show decide (p.1 = w) = true by simp [h])]
    · rw [if_neg (show ¬decide (p.1 = w) = true by simp [h])]
      apply List.filter_eq_nil_iff.mpr
      intro r hr
      simp [hres r hr, h]
  rw [congrArg (List.flatMap (merge2 d)) (funext hinner), flatMap_if_filter,
    merge2_filter_eq hW hA hI hw ha haid him hpid]
  simp only [List.flatMap_cons, List.flatMap_nil, List.append_nil]

/-- C2: under unique table keys, an artwork retained by both inner joins
yields exactly one enriched row with absent financial columns when it has
no financial events, and exactly one enriched row per event otherwise —
all of its rows agreeing on every non-financial column. -/
theorem enriched_fanout_per_artwork (d : ArtData) (w : Artwork) (a : Artist) (im : ImageAsset)
    (hW : (d.artwork.map (fun x => x.artwork_id)).Nodup)
    (hA : (d.artist.map (fun x => x.artist_id)).Nodup)
    (hI : (d.image_asset.map (fun x => x.image_id)).Nodup)
    (hw : w ∈ d.artwork) (ha : a ∈ d.artist) (haid : a.artist_id = w.artist_id)
    (him : im ∈ d.image_asset) (hpid : w.image_primary_id = some im.image_id) :
    (d.artwork_financial.filter (fun f => decide (f.artwork_id = w.artwork_id)) = [] →
      (merge_data d).filter (fun r => decide (r.artwork = w)) = [⟨w, a, im, none⟩]) ∧
    (d.artwork_financial.filter (fun f => decide (f.artwork_id = w.artwork_id)) ≠ [] →
      (merge_data d).filter (fun r => decide (r.artwork = w)) =
        (d.artwork_financial.filter (fun f => decide (f.artwork_id = w.artwork_id))).map
          (fun f => ⟨w, a, im, some f⟩) ∧
      ((merge_data d).filter (fun r => decide (r.artwork = w))).length =
        (d.artwork_financial.filter (fun f => decide (f.artwork_id = w.artwork_id))).length) ∧
    (∀ r ∈ (merge_data d).filter (fun r => decide (r.artwork = w)),
      r.artwork = w ∧ r.artist = a ∧ r.image = im) := by
  have hcore := merge_data_filter_eq hW hA hI hw ha haid him hpid
  refine ⟨?_, ?_, ?_⟩
  · intro hf
    rw [hcore, if_pos hf]
  · intro hf
    rw [hcore, if_neg hf]
    exact ⟨rfl, by rw [List.length_map]⟩
  · intro r hr
    rw [hcore] at hr
    split at hr
    · simp at hr; subst hr; exact ⟨rfl, rfl, rfl⟩
    · obtain ⟨f, -, rfl⟩ := List.mem_map.mp hr; exact ⟨rfl, rfl, rfl⟩

/-- C2 witness: artwork 10 of the spec's example dataset has two events
and exactly two enriched rows. -/
theorem enriched_fanout_per_artwork_witness :
    (merge_data dEx).filter
        (fun r => decide (r.artwork = (⟨10, 1, some 100, "T"⟩ : Artwork))) =
      (dEx.artwork_financial.filter
          (fun f => decide (f.artwork_id = (⟨10, 1, some 100, "T"⟩ : Artwork).artwork_id))).map
        (fun f => ⟨⟨10, 1, some 100, "T"⟩, ⟨1, "A"⟩, ⟨100, 10, "k"⟩, some f⟩) ∧
    ((merge_data dEx).filter
        (fun r => decide (r.artwork = (⟨10, 1, some 100, "T"⟩ : Artwork)))).length =
      (dEx.artwork_financial.filter
          (fun f => decide (f.artwork_id = (⟨10, 1, some 100, "T"⟩ : Artwork).artwork_id))).length :=
  (enriched_fanout_per_artwork dEx ⟨10, 1, some 100, "T"⟩ ⟨1, "A"⟩ ⟨100, 10, "k"⟩
    (by decide) (by decide) (by decide) (by decide) (by decide) (by decide)
    (by decide) (by decide)).2.1 (by decide)

lemma filter_length_any {α β : Type} [DecidableEq β] (key : α → β) (q : α → Bool)
    (hq : ∀ y z, q y = true → q z = true → key y = key z) :
    ∀ {l : List α}, (l.map key).Nodup →
      (l.filter q).length = if l.any q then 1 else 0
  | [], _ => by simp
  | z :: l, hnd => by
    rw [List.map_cons, List.nodup_cons] at hnd
    by_cases h : q z
    · rw [List.filter_cons_of_pos h]
      have hnil : l.filter q = [] := by
        rw [List.filter_eq_nil_iff]
        intro y hy hk
        exact hnd.1 ((hq y z hk h) ▸ List.mem_map_of_mem key hy)
      simp [hnil, List.any_cons, h]
    · rw [List.filter_cons_of_neg (by simp [h]), filter_length_any key q hq hnd.2]
      simp [List.any_cons, h]

/-- C9: each join stage preserves the left-hand table's row order with no
sorting: the first two stages output the artwork sequence filtered (in
place) to the resolvable rows, and the financial stage replaces each
left row by a contiguous block of its fan-out rows. -/
theorem join_preserves_left_order (d : ArtData)
    (hA : (d.artist.map (fun x => x.artist_id)).Nodup)
    (hI : (d.image_asset.map (fun x => x.image_id)).Nodup) :
    ((merge1 d).map (fun p => p.1) =
      d.artwork.filter (fun w => d.artist.any (fun x => decide (x.artist_id = w.artist_id)))) ∧
    ((merge2 d).map (fun p => p.1) =
      d.artwork.filter (fun w =>
        d.artist.any (fun x => decide (x.artist_id = w.artist_id)) &&
        d.image_asset.any (fun x => decide (w.image_primary_id = some x.image_id)))) ∧
    ((merge_data d).map (fun r => r.artwork) =
      (merge2 d).flatMap (fun p =>
        List.replicate
          (max 1 (d.artwork_financial.filter
            (fun f => decide (f.artwork_id = p.1.artwork_id))).length) p.1)) := by
  have h1 : (merge1 d).map (fun p => p.1) =
      d.artwork.filter (fun w => d.artist.any (fun x => decide (x.artist_id = w.artist_id))) := by
    rw [merge1, List.map_flatMap]
    have hinner : ∀ w : Artwork,
        (((d.artist.filter (fun x => decide (x.artist_id = w.artist_id))).map
          (fun x => (w, x))).map (fun p => p.1)) =
        if d.artist.any (fun x => decide (x.artist_id = w.artist_id)) then [w] else [] := by
      intro w
      rw [List.map_map,
        show ((fun p : Artwork × Artist => p.1) ∘ fun x => (w, x)) = (fun _ => w) from rfl,
        List.map_const',
        filter_length_any (fun x => x.artist_id) _
          (fun y z hy hz => (of_decide_eq_true hy).trans (of_decide_eq_true hz).symm) hA]
      by_cases h : d.artist.any (fun x => decide (x.artist_id = w.artist_id)) <;> simp [h]
    rw [congrArg (List.flatMap d.artwork) (funext hinner), flatMap_if_filter]
    simp
  have h2 : (merge2 d).map (fun p => p.1) =
      ((merge1 d).map (fun p => p.1)).filter
        (fun w => d.image_asset.any (fun x => decide (w.image_primary_id = some x.image_id))) := by
    rw [merge2, List.map_flatMap]
    have hinner : ∀ p : Artwork × Artist,
        (((d.image_asset.filter (fun x => decide (p.1.image_primary_id = some x.image_id))).map
          (fun x => (p.1, p.2, x))).map (fun t => t.1)) =
        if d.image_asset.any (fun x => decide (p.1.image_primary_id = some x.image_id)) then
          [p.1] else [] := by
      intro p
      rw [List.map_map,
        show ((fun t : Artwork × Artist × ImageAsset => t.1) ∘ fun x => (p.1, p.2, x)) =
          (fun _ => p.1) from rfl,
        List.map_const',
        filter_length_any (fun x => x.image_id) _
          (fun y z hy hz => Option.some.inj
            ((of_decide_eq_true hy).symm.trans (of_decide_eq_true hz))) hI]
      by_cases h :
          d.image_asset.any (fun x => decide (p.1.image_primary_id = some x.image_id)) <;>
        simp [h]
    rw [congrArg (List.flatMap (merge1 d)) (funext hinner), flatMap_if_filter, List.filter_map]
    exact (List.map_eq_flatMap _ _).symm
  refine ⟨h1, ?_, ?_⟩
  · rw [h2, h1, List.filter_filter]
    exact List.filter_congr (fun w _ => by rw [Bool.and_comm])
  · rw [merge_data, List.map_flatMap]
    apply congrArg (List.flatMap (merge2 d))
    funext p
    by_cases hf :
        d.artwork_financial.filter (fun f => decide (f.artwork_id = p.1.artwork_id)) = []
    · rw [if_pos hf, hf]
      simp
    · rw [if_neg hf, List.map_map,
        show ((fun r : Enriched => r.artwork) ∘
          fun f => (⟨p.1, p.2.1, p.2.2, some f⟩ : Enriched)) = (fun _ => p.1) from rfl,
        List.map_const',
        Nat.max_eq_right (Nat.one_le_iff_ne_zero.mpr (by simp [hf]))]

/-- C9 witness: stage-1 order preservation on the spec's example data. -/
theorem join_preserves_left_order_witness :
    (merge1 dEx).map (fun p => p.1) =
      dEx.artwork.filter (fun w => dEx.artist.any (fun x => decide (x.artist_id = w.artist_id))) :=
  (join_preserves_left_order dEx (by decide) (by decide)).1
